import Mathlib

/-!
# Dustbin component (`client/src/components/Dustbin.jsx`)

A shallow embedding of the mutable state of the `Dustbin` React component and of
the callbacks that change it: the dustbin loader callbacks, `animateGarbage`,
`handleResize`, `handleClick` and the garbage loader callbacks.

3D objects are JavaScript references.  A falling item is represented by a
reference number (`Nat`); the object it points to lives in a store
(`World.position`), so that the scene and `garbageList` share one object, as
they do in the source.  Coordinates are exact rationals (`0.145 = 29/200`,
`-4.5 = -9/2`).
-/

namespace Dustbin

/-- The `position` of a three.js object: `position.x`, `position.y`, `position.z`. -/
structure Vector3 where
  x : ℚ
  y : ℚ
  z : ℚ
deriving DecidableEq

/-- The objects that the component ever attaches to the scene: the two lights
created in the effect, the dustbin model, and the garbage models (one fresh
object per successful garbage load, identified by its reference). -/
inductive Object3D where
  | ambientLight
  | directionalLight
  | dustbinModel
  | garbage (ref : Nat)
deriving DecidableEq

/-- Lines written to the console by the component. -/
inductive LogEntry where
  | errorLoadingDustbin
  | errorLoadingGarbage
  | pointsUpdated
  | errorCallingServer
deriving DecidableEq

/-- The mutable state of a mounted component. -/
structure World where
  /-- the value of `garbage.position` for the garbage object with the given reference -/
  position : Nat → Vector3
  /-- the array `scene.children`, in attachment order -/
  children : List Object3D
  /-- whether `sceneRef.current` is not null -/
  sceneRef : Bool
  /-- whether `dustbinRef.current` is not null -/
  dustbinRef : Bool
  /-- the array `garbageList.current`: references of the tracked garbage objects -/
  garbageList : List Nat
  /-- the React state `isLoading` -/
  isLoading : Bool
  /-- the dustbin `loader.load` of the effect has not called back yet -/
  dustbinPending : Bool
  /-- reference that the next `gltf.scene` object will get -/
  nextRef : Nat
  /-- number of `loader.load("/garbage_bag/scene.gltf", ...)` calls made -/
  garbageLoads : Nat
  /-- number of `axios.get("http://localhost:4000/add-points")` calls made -/
  networkCalls : Nat
  /-- the value of `camera.aspect`, kept as the pair `(clientWidth, clientHeight)` it is the quotient of -/
  cameraAspect : Nat × Nat
  /-- size given to `renderer.setSize` -/
  rendererSize : Nat × Nat
  /-- console output, oldest first -/
  console : List LogEntry

/-- The call `scene.add(object)` for an object that has no parent: three.js pushes it on
`children`. -/
def sceneAdd (children : List Object3D) (object : Object3D) : List Object3D :=
  children ++ [object]

/-- The call `scene.remove(object)`: three.js looks the object up with `indexOf` and
splices that one entry out; nothing happens when it is not a child. -/
def sceneRemove (children : List Object3D) (object : Object3D) : List Object3D :=
  children.erase object

/-- The call `array.splice(index, 1)`. -/
def splice1 (array : List Nat) (index : Nat) : List Nat :=
  array.eraseIdx index

/-- State right after the body of the `useEffect` ran for a container of the
given size: scene created and stored in `sceneRef`, both lights attached, the
dustbin load started, nothing tracked, `isLoading` still `true`. -/
def mount (clientWidth clientHeight : Nat) : World :=
  { position := fun _ => ⟨0, 0, 0⟩
    children := sceneAdd (sceneAdd [] .ambientLight) .directionalLight
    sceneRef := true
    dustbinRef := false
    garbageList := []
    isLoading := true
    dustbinPending := true
    nextRef := 0
    garbageLoads := 0
    networkCalls := 0
    cameraAspect := (clientWidth, clientHeight)
    rendererSize := (clientWidth, clientHeight)
    console := [] }

/-- Success callback of the dustbin load (lines 48-56). -/
def onDustbinLoad (s : World) : World :=
  { s with
    children := sceneAdd s.children .dustbinModel
    dustbinRef := true
    isLoading := false }

/-- Error callback of the dustbin load (lines 58-60). -/
def onDustbinError (s : World) : World :=
  { s with console := s.console ++ [.errorLoadingDustbin] }

/-- Fall per frame, `0.145`. -/
def fallStep : ℚ := 29 / 200

/-- Removal threshold, `-4.5`. -/
def threshold : ℚ := -9 / 2

/-- The statement `garbage.position.y -= 0.145` on a position. -/
def fall (p : Vector3) : Vector3 :=
  { p with y := p.y - fallStep }

/-- One call of the `forEach` callback of `animateGarbage` (lines 64-73) for
index `index`.  `forEach` only calls back for an index that is still present
in the array, so an index past the current end is passed over. -/
def animateGarbageVisit (s : World) (index : Nat) : World :=
  match s.garbageList[index]? with
  | none => s
  | some garbage =>
    let s1 := { s with position := Function.update s.position garbage (fall (s.position garbage)) }
    if (s1.position garbage).y < threshold then
      { s1 with
        children := sceneRemove s1.children (.garbage garbage)
        garbageList := splice1 s1.garbageList index }
    else s1

/-- The function `animateGarbage` (lines 63-74): `forEach` reads the length once,
before the first callback, and then visits the indices `0, 1, ..., length - 1`
in this order on the array as it is at that moment. -/
def animateGarbage (s : World) : World :=
  (List.range s.garbageList.length).foldl animateGarbageVisit s

/-- The function `handleResize` (lines 89-97) for the current container size. -/
def handleResize (clientWidth clientHeight : Nat) (s : World) : World :=
  { s with
    cameraAspect := (clientWidth, clientHeight)
    rendererSize := (clientWidth, clientHeight) }

/-- The synchronous part of `handleClick` (lines 107-148): the two guards, then
the start of the garbage load and of the network call. -/
def handleClick (s : World) : World :=
  if s.isLoading then s
  else if !s.sceneRef || !s.dustbinRef then s
  else
    { s with
      garbageLoads := s.garbageLoads + 1
      networkCalls := s.networkCalls + 1 }

/-- The position given to a new garbage object (lines 122-126), `r1` and `r2`
being the two values returned by `Math.random()`. -/
def spawnPosition (r1 r2 : ℚ) : Vector3 :=
  ⟨r1 * 2 - 1, 15, r2 * 2 - 1⟩

/-- Success callback of a garbage load (lines 117-139): `gltf.scene` is a fresh
object; it is positioned, attached to the scene and pushed on `garbageList`. -/
def onGarbageLoad (r1 r2 : ℚ) (s : World) : World :=
  let garbage := s.nextRef
  { s with
    position := Function.update s.position garbage (spawnPosition r1 r2)
    children := sceneAdd s.children (.garbage garbage)
    garbageList := s.garbageList ++ [garbage]
    nextRef := s.nextRef + 1 }

/-- Error callback of a garbage load (lines 141-143). -/
def onGarbageError (s : World) : World :=
  { s with console := s.console ++ [.errorLoadingGarbage] }

/-- Continuation of `handleClick` after the awaited network call: the `try`
branch (`true`) or the `catch` branch (`false`), lines 147-152. -/
def onNetworkResult (ok : Bool) (s : World) : World :=
  { s with console := s.console ++ [if ok then .pointsUpdated else .errorCallingServer] }

/-- What can happen to a mounted component. -/
inductive Event where
  | dustbinLoaded
  | dustbinFailed
  | click
  | garbageLoaded (r1 r2 : ℚ)
  | garbageFailed
  | networkResult (ok : Bool)
  | frame
  | resize (clientWidth clientHeight : Nat)

/-- Effect of one event.  The dustbin load is started once, by the effect, and
the loader calls exactly one of its two callbacks, once: `dustbinPending`
records that this has not happened yet.  The callbacks of the garbage loads and
of the network calls are accepted in every state.  A frame runs
`animateGarbage` and renders, which changes nothing that is tracked here. -/
def step (s : World) : Event → World
  | .dustbinLoaded =>
    if s.dustbinPending then onDustbinLoad { s with dustbinPending := false } else s
  | .dustbinFailed =>
    if s.dustbinPending then onDustbinError { s with dustbinPending := false } else s
  | .click => handleClick s
  | .garbageLoaded r1 r2 => onGarbageLoad r1 r2 s
  | .garbageFailed => onGarbageError s
  | .networkResult ok => onNetworkResult ok s
  | .frame => animateGarbage s
  | .resize w h => handleResize w h s

/-- Effect of a sequence of events, first event first. -/
def run (s : World) (events : List Event) : World :=
  events.foldl step s

/-- The state after `n` consecutive frames. -/
def ticks (n : Nat) (s : World) : World :=
  run s (List.replicate n .frame)

/-- Reference of a scene child that is a garbage object. -/
def garbageRef? : Object3D → Option Nat
  | .garbage ref => some ref
  | _ => none

/-- The garbage objects attached to the scene, in attachment order. -/
def garbageChildren (children : List Object3D) : List Nat :=
  children.filterMap garbageRef?

/-- Consistency of a state: the tracked references are in spawn order (hence
distinct) and already allocated, the garbage attached to the scene is exactly
the tracked garbage, and no tracked item is below the threshold. -/
def Tracked (s : World) : Prop :=
  s.garbageList.Pairwise (· < ·) ∧
  (∀ g ∈ s.garbageList, g < s.nextRef) ∧
  garbageChildren s.children = s.garbageList ∧
  (∀ g ∈ s.garbageList, threshold ≤ (s.position g).y)

/-- What holds before index `k` is visited in a frame that started in `s`: the
entries are distinct, the entries from index `k` on are untouched, and every
object is either untouched or has fallen once. -/
def VisitedOnce (s : World) (k : Nat) (t : World) : Prop :=
  t.garbageList.Nodup ∧
  (∀ i o, k ≤ i → t.garbageList[i]? = some o → t.position o = s.position o) ∧
  (∀ o, t.position o = s.position o ∨ t.position o = fall (s.position o))

/-- Relation between the state `s` at the start of a frame and a state `t`
during it: the tracked items and the scene children of `t` are kept from `s` in
their order, and an object that is not a tracked garbage item of `s` is attached
as often as it was. -/
def KeptFrom (s t : World) : Prop :=
  t.garbageList.Sublist s.garbageList ∧
  t.children.Sublist s.children ∧
  (∀ c, (∀ g ∈ s.garbageList, c ≠ Object3D.garbage g) → t.children.count c = s.children.count c)

/-- Two spawns one frame apart, and the 133 frames that follow: the older item
has then fallen 134 times and the younger 133 times. -/
def beforeRemoval : World :=
  run (mount 800 700)
    ([Event.dustbinLoaded, Event.click, Event.garbageLoaded (1 / 2) (1 / 2), Event.frame,
        Event.click, Event.garbageLoaded (1 / 2) (1 / 2)] ++
      List.replicate 133 Event.frame)

/-- Two spawns one frame apart: the second item has just been appended. -/
def secondSpawned : World :=
  run (mount 800 700)
    [Event.dustbinLoaded, Event.click, Event.garbageLoaded (1 / 2) (1 / 2), Event.frame,
      Event.click, Event.garbageLoaded (1 / 2) (1 / 2)]

/-- A mounted component whose dustbin has loaded. -/
def ready : World :=
  step (mount 800 700) Event.dustbinLoaded

theorem garbageChildren_sceneAdd_garbage (children : List Object3D) (g : Nat) :
    garbageChildren (sceneAdd children (.garbage g)) = garbageChildren children ++ [g] := by
  simp [garbageChildren, sceneAdd, List.filterMap_append, garbageRef?]

theorem garbageChildren_sceneAdd_dustbin (children : List Object3D) :
    garbageChildren (sceneAdd children .dustbinModel) = garbageChildren children := by
  simp [garbageChildren, sceneAdd, List.filterMap_append, garbageRef?]

theorem garbageChildren_sceneRemove (children : List Object3D) (g : Nat) :
    garbageChildren (sceneRemove children (.garbage g)) = (garbageChildren children).erase g := by
  induction children with
  | nil => simp [garbageChildren, sceneRemove]
  | cons c cs ih =>
    simp only [garbageChildren, sceneRemove] at ih ⊢
    by_cases hc : c = .garbage g
    · subst hc
      simp [garbageRef?]
    · rw [List.erase_cons_tail (by simpa using hc)]
      cases c with
      | garbage r =>
        have hr : r ≠ g := fun h => hc (by rw [h])
        simp only [List.filterMap_cons, garbageRef?]
        rw [List.erase_cons_tail (by simpa using hr), ih]
      | ambientLight => simpa [List.filterMap_cons, garbageRef?] using ih
      | directionalLight => simpa [List.filterMap_cons, garbageRef?] using ih
      | dustbinModel => simpa [List.filterMap_cons, garbageRef?] using ih

theorem mem_garbageChildren (children : List Object3D) (g : Nat) :
    g ∈ garbageChildren children ↔ Object3D.garbage g ∈ children := by
  simp only [garbageChildren, List.mem_filterMap]
  constructor
  · rintro ⟨c, hc, h⟩
    cases c <;> simp [garbageRef?] at h
    subst h
    exact hc
  · intro h
    exact ⟨_, h, rfl⟩

theorem splice1_of_nodup {l : List Nat} (hl : l.Nodup) {k g : Nat} (h : l[k]? = some g) :
    splice1 l k = l.erase g := by
  obtain ⟨hk, rfl⟩ := List.getElem?_eq_some.1 h
  exact (hl.erase_getElem k hk).symm

theorem tracked_visit (s : World) (k : Nat) (h : Tracked s) : Tracked (animateGarbageVisit s k) := by
  obtain ⟨hpw, hlt, hch, hthr⟩ := h
  have hnd : s.garbageList.Nodup := hpw.imp (fun h => Nat.ne_of_lt h)
  unfold animateGarbageVisit
  split
  · exact ⟨hpw, hlt, hch, hthr⟩
  · next g hg =>
    simp only [Function.update_same]
    split
    · next hbelow =>
      have hsp := splice1_of_nodup hnd hg
      refine ⟨?_, ?_, ?_, ?_⟩
      · simp only [hsp]
        exact hpw.sublist (List.erase_sublist _ _)
      · intro g1 hg1
        simp only [hsp] at hg1
        exact hlt g1 (List.mem_of_mem_erase hg1)
      · simp only [hsp, garbageChildren_sceneRemove, hch]
      · intro g1 hg1
        simp only [hsp] at hg1
        have := (hnd.mem_erase_iff).1 hg1
        simp only [Function.update_noteq this.1]
        exact hthr g1 this.2
    · next hkeep =>
      refine ⟨hpw, hlt, hch, ?_⟩
      intro g1 hg1
      by_cases hEq : g1 = g
      · subst hEq
        simpa using not_lt.1 hkeep
      · simp only [Function.update_noteq hEq]
        exact hthr g1 hg1

theorem tracked_foldl_visit (indices : List Nat) (s : World) (h : Tracked s) :
    Tracked (indices.foldl animateGarbageVisit s) := by
  induction indices generalizing s with
  | nil => exact h
  | cons k ks ih => exact ih _ (tracked_visit s k h)

theorem tracked_animateGarbage (s : World) (h : Tracked s) : Tracked (animateGarbage s) :=
  tracked_foldl_visit _ s h

theorem tracked_onGarbageLoad (r1 r2 : ℚ) (s : World) (h : Tracked s) :
    Tracked (onGarbageLoad r1 r2 s) := by
  obtain ⟨hpw, hlt, hch, hthr⟩ := h
  refine ⟨?_, ?_, ?_, ?_⟩
  · simp only [onGarbageLoad]
    rw [List.pairwise_append]
    refine ⟨hpw, List.pairwise_singleton _ _, ?_⟩
    intro a ha b hb
    rw [List.mem_singleton] at hb
    subst hb
    exact hlt a ha
  · intro g hg
    simp only [onGarbageLoad, List.mem_append, List.mem_singleton] at hg ⊢
    rcases hg with hg | hg
    · exact Nat.lt_succ_of_lt (hlt g hg)
    · rw [hg]; exact Nat.lt_succ_self _
  · simp only [onGarbageLoad, garbageChildren_sceneAdd_garbage, hch]
  · intro g hg
    simp only [onGarbageLoad, List.mem_append, List.mem_singleton] at hg ⊢
    rcases hg with hg | hg
    · have hne : g ≠ s.nextRef := Nat.ne_of_lt (hlt g hg)
      rw [Function.update_noteq hne]
      exact hthr g hg
    · subst hg
      rw [Function.update_same]
      norm_num [spawnPosition, threshold]

theorem tracked_mount (w h : Nat) : Tracked (mount w h) := by
  refine ⟨?_, ?_, ?_, ?_⟩ <;> simp [mount, garbageChildren, sceneAdd, garbageRef?]

theorem tracked_step (s : World) (e : Event) (h : Tracked s) : Tracked (step s e) := by
  cases e with
  | dustbinLoaded =>
    simp only [step]
    split
    · obtain ⟨hpw, hlt, hch, hthr⟩ := h
      exact ⟨hpw, hlt, by simpa [onDustbinLoad, garbageChildren_sceneAdd_dustbin] using hch, hthr⟩
    · exact h
  | dustbinFailed =>
    simp only [step]
    split
    · exact h
    · exact h
  | click =>
    simp only [step, handleClick]
    split
    · exact h
    · split
      · exact h
      · exact h
  | garbageLoaded r1 r2 => exact tracked_onGarbageLoad r1 r2 s h
  | garbageFailed => exact h
  | networkResult ok => exact h
  | frame => exact tracked_animateGarbage s h
  | resize w h1 => exact h

theorem tracked_run (events : List Event) (s : World) (h : Tracked s) : Tracked (run s events) := by
  induction events generalizing s with
  | nil => exact h
  | cons e es ih => exact ih _ (tracked_step s e h)

/-- C4: in every state reached from the mounted component by any sequence of
events (spawns and frames among them), the garbage attached to the scene is
exactly the tracked garbage, entry for entry; and a frame removes from
`garbageList` exactly the items that it detaches from the scene. -/
theorem collection_scene_invariant (w h : Nat) (events : List Event) :
    garbageChildren (run (mount w h) events).children = (run (mount w h) events).garbageList ∧
    (∀ g, g ∈ (run (mount w h) events).garbageList ↔
      Object3D.garbage g ∈ (run (mount w h) events).children) ∧
    (∀ g, (g ∈ (run (mount w h) events).garbageList ∧
          g ∉ (animateGarbage (run (mount w h) events)).garbageList) ↔
        (Object3D.garbage g ∈ (run (mount w h) events).children ∧
          Object3D.garbage g ∉ (animateGarbage (run (mount w h) events)).children)) := by
  have h1 := tracked_run events _ (tracked_mount w h)
  have h2 := tracked_animateGarbage _ h1
  refine ⟨h1.2.2.1, ?_, ?_⟩
  · intro g
    rw [← mem_garbageChildren, h1.2.2.1]
  · intro g
    rw [← mem_garbageChildren, ← mem_garbageChildren, h1.2.2.1, h2.2.2.1]

/-- C10: in every state reached from the mounted component by any sequence of
events (spawns at height 15 and frames among them), every tracked item has a
vertical coordinate of at least -4.5. -/
theorem threshold_invariant (w h : Nat) (events : List Event) (g : Nat)
    (hg : g ∈ (run (mount w h) events).garbageList) :
    threshold ≤ ((run (mount w h) events).position g).y :=
  (tracked_run events _ (tracked_mount w h)).2.2.2 g hg

theorem foldl_range_induction {σ : Type} (f : σ → Nat → σ) (P : Nat → σ → Prop) (s : σ) (n : Nat)
    (h0 : P 0 s) (hstep : ∀ k t, k < n → P k t → P (k + 1) (f t k)) :
    P n ((List.range n).foldl f s) := by
  induction n with
  | zero => simpa using h0
  | succ m ih =>
    rw [List.range_succ, List.foldl_append]
    simp only [List.foldl_cons, List.foldl_nil]
    exact hstep m _ (Nat.lt_succ_self m)
      (ih (fun k t hk hP => hstep k t (Nat.lt_succ_of_lt hk) hP))

theorem nodup_getElem?_ne {l : List Nat} (hl : l.Nodup) {i j a b : Nat}
    (hi : l[i]? = some a) (hj : l[j]? = some b) (hij : i ≠ j) : a ≠ b := by
  obtain ⟨hi1, rfl⟩ := List.getElem?_eq_some.1 hi
  obtain ⟨hj1, rfl⟩ := List.getElem?_eq_some.1 hj
  intro h
  exact hij ((hl.getElem_inj_iff).1 h)

theorem visitedOnce_visit (s t : World) (k : Nat) (h : VisitedOnce s k t) :
    VisitedOnce s (k + 1) (animateGarbageVisit t k) := by
  obtain ⟨hnd, hrest, hall⟩ := h
  unfold animateGarbageVisit
  split
  · exact ⟨hnd, fun i o hi ho => hrest i o (Nat.le_of_succ_le hi) ho, hall⟩
  · next g hg =>
    have hgpos : t.position g = s.position g := hrest k g (Nat.le_refl k) hg
    have hall1 : ∀ o, Function.update t.position g (fall (t.position g)) o = s.position o ∨
        Function.update t.position g (fall (t.position g)) o = fall (s.position o) := by
      intro o
      by_cases ho : o = g
      · subst ho
        right
        rw [Function.update_same, hgpos]
      · rw [Function.update_noteq ho]
        exact hall o
    dsimp only
    split
    · refine ⟨hnd.sublist (List.eraseIdx_sublist _ _), ?_, hall1⟩
      intro i o hi ho
      simp only [splice1] at ho
      rw [List.getElem?_eraseIdx_of_ge _ _ _ (Nat.le_of_succ_le hi)] at ho
      have hne : o ≠ g := nodup_getElem?_ne hnd ho hg (by omega)
      simp only [Function.update_noteq hne]
      exact hrest (i + 1) o (by omega) ho
    · refine ⟨hnd, ?_, hall1⟩
      intro i o hi ho
      have hne : o ≠ g := nodup_getElem?_ne hnd ho hg (by omega)
      simp only [Function.update_noteq hne]
      exact hrest i o (Nat.le_of_succ_le hi) ho

/-- C2: in one frame no item is processed twice.  For a collection of distinct
objects, every object (each item of the collection in particular) ends the
frame at its old position or at its old position lowered by exactly 0.145; its
two horizontal coordinates are unchanged. -/
theorem animateGarbage_at_most_once (s : World) (hdistinct : s.garbageList.Nodup) (g : Nat) :
    (((animateGarbage s).position g).y = (s.position g).y ∨
      ((animateGarbage s).position g).y = (s.position g).y - 29 / 200) ∧
    ((animateGarbage s).position g).x = (s.position g).x ∧
    ((animateGarbage s).position g).z = (s.position g).z := by
  have h := foldl_range_induction animateGarbageVisit (VisitedOnce s) s s.garbageList.length
    ⟨hdistinct, fun _ _ _ _ => rfl, fun _ => Or.inl rfl⟩
    (fun k t _ hP => visitedOnce_visit s t k hP)
  rcases h.2.2 g with h1 | h1
  · exact ⟨Or.inl (by rw [animateGarbage, h1]), by rw [animateGarbage, h1], by rw [animateGarbage, h1]⟩
  · exact ⟨Or.inr (by rw [animateGarbage, h1]; rfl), by rw [animateGarbage, h1]; rfl,
      by rw [animateGarbage, h1]; rfl⟩

theorem keptFrom_visit (s t : World) (k : Nat) (h : KeptFrom s t) :
    KeptFrom s (animateGarbageVisit t k) := by
  obtain ⟨hl, hc, hcount⟩ := h
  unfold animateGarbageVisit
  split
  · exact ⟨hl, hc, hcount⟩
  · next g hg =>
    dsimp only
    split
    · refine ⟨(List.eraseIdx_sublist _ _).trans hl, (List.erase_sublist _ _).trans hc, ?_⟩
      intro c hne
      have hgs : g ∈ s.garbageList := hl.subset (List.getElem?_mem hg)
      simp only [sceneRemove]
      rw [List.count_erase_of_ne (hne g hgs), hcount c hne]
    · exact ⟨hl, hc, hcount⟩

theorem keptFrom_animateGarbage (s : World) : KeptFrom s (animateGarbage s) := by
  have h : ∀ (indices : List Nat) (t : World), KeptFrom s t →
      KeptFrom s (indices.foldl animateGarbageVisit t) := by
    intro indices
    induction indices with
    | nil => exact fun t ht => ht
    | cons k ks ih => exact fun t ht => ih _ (keptFrom_visit s t k ht)
  exact h _ s ⟨List.Sublist.refl _, List.Sublist.refl _, fun _ _ => rfl⟩

theorem visit_control (s : World) (k : Nat) :
    (animateGarbageVisit s k).isLoading = s.isLoading ∧
    (animateGarbageVisit s k).dustbinPending = s.dustbinPending := by
  unfold animateGarbageVisit
  split
  · exact ⟨rfl, rfl⟩
  · dsimp only
    split <;> exact ⟨rfl, rfl⟩

theorem animateGarbage_control (s : World) :
    (animateGarbage s).isLoading = s.isLoading ∧
    (animateGarbage s).dustbinPending = s.dustbinPending := by
  have h : ∀ (indices : List Nat) (t : World),
      (indices.foldl animateGarbageVisit t).isLoading = t.isLoading ∧
      (indices.foldl animateGarbageVisit t).dustbinPending = t.dustbinPending := by
    intro indices
    induction indices with
    | nil => exact fun t => ⟨rfl, rfl⟩
    | cons k ks ih =>
      intro t
      have h1 := ih (animateGarbageVisit t k)
      have h2 := visit_control t k
      exact ⟨h1.1.trans h2.1, h1.2.trans h2.2⟩
  exact h _ s

theorem step_children_nongarbage (s : World) (e : Event) (c : Object3D)
    (hc : ∀ g, c ≠ Object3D.garbage g) (hmem : c ∈ s.children) : c ∈ (step s e).children := by
  cases e with
  | dustbinLoaded =>
    simp only [step]
    split
    · simp [onDustbinLoad, sceneAdd, hmem]
    · exact hmem
  | dustbinFailed =>
    simp only [step]
    split <;> exact hmem
  | click =>
    simp only [step, handleClick]
    split
    · exact hmem
    · split <;> exact hmem
  | garbageLoaded r1 r2 => simp [step, onGarbageLoad, sceneAdd, hmem]
  | garbageFailed => exact hmem
  | networkResult ok => exact hmem
  | frame =>
    have h := (keptFrom_animateGarbage s).2.2 c (fun g _ => hc g)
    have hpos : 0 < s.children.count c := List.count_pos_iff.2 hmem
    rw [← h] at hpos
    exact List.count_pos_iff.1 hpos
  | resize w h => exact hmem

theorem run_children_nongarbage (events : List Event) (s : World) (c : Object3D)
    (hc : ∀ g, c ≠ Object3D.garbage g) (hmem : c ∈ s.children) : c ∈ (run s events).children := by
  induction events generalizing s with
  | nil => exact hmem
  | cons e es ih => exact ih _ (step_children_nongarbage s e c hc hmem)

/-- C9: a frame detaches from the scene only entries of the falling-item
collection; the lights and the dustbin model, once attached, stay attached
through every sequence of events; and the items that survive a frame keep
their relative order, which in every reachable state is the spawn order. -/
theorem dustbin_never_removed :
    (∀ s c, c ∈ s.children → c ∉ (animateGarbage s).children →
      ∃ g ∈ s.garbageList, c = Object3D.garbage g) ∧
    (∀ s events c, (∀ g, c ≠ Object3D.garbage g) → c ∈ s.children →
      c ∈ (run s events).children) ∧
    (∀ w h events, Object3D.ambientLight ∈ (run (mount w h) events).children ∧
      Object3D.directionalLight ∈ (run (mount w h) events).children) ∧
    (∀ w h events,
      Object3D.dustbinModel ∈ (run (step (mount w h) Event.dustbinLoaded) events).children) ∧
    (∀ s, (animateGarbage s).garbageList.Sublist s.garbageList) ∧
    (∀ w h events, (run (mount w h) events).garbageList.Pairwise (· < ·)) := by
  refine ⟨?_, ?_, ?_, ?_, ?_, ?_⟩
  · intro s c hin hout
    by_contra hne
    push_neg at hne
    have h := (keptFrom_animateGarbage s).2.2 c hne
    have hpos : 0 < s.children.count c := List.count_pos_iff.2 hin
    rw [← h] at hpos
    exact hout (List.count_pos_iff.1 hpos)
  · intro s events c hc hmem
    exact run_children_nongarbage events s c hc hmem
  · intro w h events
    constructor
    · exact run_children_nongarbage events _ _ (fun g => by simp) (by simp [mount, sceneAdd])
    · exact run_children_nongarbage events _ _ (fun g => by simp) (by simp [mount, sceneAdd])
  · intro w h events
    exact run_children_nongarbage events _ _ (fun g => by simp)
      (by simp [step, mount, onDustbinLoad, sceneAdd])
  · intro s
    exact (keptFrom_animateGarbage s).1
  · intro w h events
    exact (tracked_run events _ (tracked_mount w h)).1

theorem step_isLoading_change (s : World) (e : Event)
    (h : (step s e).isLoading ≠ s.isLoading) :
    e = Event.dustbinLoaded ∧ s.dustbinPending = true ∧ s.isLoading = true ∧
      (step s e).isLoading = false := by
  cases e with
  | dustbinLoaded =>
    by_cases hp : s.dustbinPending = true
    · have hs : (step s Event.dustbinLoaded).isLoading = false := by
        simp [step, hp, onDustbinLoad]
      refine ⟨rfl, hp, ?_, hs⟩
      rw [hs] at h
      cases hl : s.isLoading
      · exact absurd hl.symm h
      · rfl
    · have hs : step s Event.dustbinLoaded = s := by
        simp [step, hp]
      rw [hs] at h
      exact absurd rfl h
  | dustbinFailed =>
    simp only [step] at h
    split at h <;> exact absurd rfl h
  | click =>
    simp only [step, handleClick] at h
    split at h
    · exact absurd rfl h
    · split at h <;> exact absurd rfl h
  | garbageLoaded r1 r2 => exact absurd rfl h
  | garbageFailed => exact absurd rfl h
  | networkResult ok => exact absurd rfl h
  | frame => exact absurd (animateGarbage_control s).1 h
  | resize w h1 => exact absurd rfl h

theorem step_settled (s : World) (e : Event) (hp : s.dustbinPending = false) :
    (step s e).dustbinPending = false ∧ (step s e).isLoading = s.isLoading := by
  cases e with
  | dustbinLoaded => simp [step, hp]
  | dustbinFailed => simp [step, hp]
  | click =>
    simp only [step, handleClick]
    split
    · exact ⟨hp, rfl⟩
    · split <;> exact ⟨hp, rfl⟩
  | garbageLoaded r1 r2 => exact ⟨hp, rfl⟩
  | garbageFailed => exact ⟨hp, rfl⟩
  | networkResult ok => exact ⟨hp, rfl⟩
  | frame => exact ⟨(animateGarbage_control s).2.trans hp, (animateGarbage_control s).1⟩
  | resize w h1 => exact ⟨hp, rfl⟩

theorem run_settled (events : List Event) (s : World) (hp : s.dustbinPending = false) :
    (run s events).isLoading = s.isLoading := by
  induction events generalizing s with
  | nil => rfl
  | cons e es ih =>
    have h := step_settled s e hp
    exact (ih _ h.1).trans h.2

theorem run_ready (events : List Event) (s : World) (hl : s.isLoading = false) :
    (run s events).isLoading = false := by
  induction events generalizing s with
  | nil => exact hl
  | cons e es ih =>
    apply ih
    by_contra hne
    have h := step_isLoading_change s e (by rw [hl]; exact hne)
    rw [hl] at h
    exact Bool.noConfusion h.2.2.1

/-- C8: the loading flag starts set; an event changes it only from set to
clear and only when it is the success callback of the dustbin load; once
clear it stays clear through every sequence of events; and after a failed
dustbin load it stays set through every sequence of events. -/
theorem loading_flag_one_way :
    (∀ w h, (mount w h).isLoading = true) ∧
    (∀ w h, (step (mount w h) Event.dustbinLoaded).isLoading = false) ∧
    (∀ s e, (step s e).isLoading ≠ s.isLoading →
      e = Event.dustbinLoaded ∧ s.isLoading = true ∧ (step s e).isLoading = false) ∧
    (∀ s events, s.isLoading = false → (run s events).isLoading = false) ∧
    (∀ s events, s.isLoading = true →
      (run (step s Event.dustbinFailed) events).isLoading = true) := by
  refine ⟨fun _ _ => rfl, fun _ _ => rfl, ?_, ?_, ?_⟩
  · intro s e h
    have h1 := step_isLoading_change s e h
    exact ⟨h1.1, h1.2.2.1, h1.2.2.2⟩
  · intro s events hl
    exact run_ready events s hl
  · intro s events hl
    have hp : (step s Event.dustbinFailed).dustbinPending = false := by
      simp only [step]
      split
      · rfl
      · next hn => simpa using hn
    have hkeep : (step s Event.dustbinFailed).isLoading = s.isLoading := by
      simp only [step]
      split <;> rfl
    rw [run_settled events _ hp, hkeep, hl]

/-- C5: while the loading flag is set, or the scene or the dustbin reference
is absent, `handleClick` changes nothing: no garbage load is started, no
network call is issued, and the collection and the scene are as before. -/
theorem handleClick_noop (s : World)
    (h : s.isLoading = true ∨ s.sceneRef = false ∨ s.dustbinRef = false) :
    handleClick s = s ∧
    (handleClick s).garbageLoads = s.garbageLoads ∧
    (handleClick s).networkCalls = s.networkCalls ∧
    (handleClick s).garbageList = s.garbageList ∧
    (handleClick s).children = s.children := by
  have h1 : handleClick s = s := by
    unfold handleClick
    rcases h with h | h | h
    · simp [h]
    · simp [h]
    · simp [h]
  rw [h1]
  exact ⟨rfl, rfl, rfl, rfl, rfl⟩

theorem handleClick_noop_witness :
    ((mount 800 700).isLoading = true ∨ (mount 800 700).sceneRef = false ∨
      (mount 800 700).dustbinRef = false) ∧
    handleClick (mount 800 700) = mount 800 700 ∧
    (handleClick (mount 800 700)).garbageLoads = (mount 800 700).garbageLoads ∧
    (handleClick (mount 800 700)).networkCalls = (mount 800 700).networkCalls ∧
    (handleClick (mount 800 700)).garbageList = (mount 800 700).garbageList ∧
    (handleClick (mount 800 700)).children = (mount 800 700).children :=
  ⟨Or.inl rfl, handleClick_noop (mount 800 700) (Or.inl rfl)⟩

/-- C6: a click on a ready component issues exactly one network call and starts
exactly one garbage load, and by itself leaves the collection and the scene
alone.  When the load succeeds one entry, a fresh object, is appended to the
collection and attached to the scene; when it fails nothing is added.  This
is so for either network outcome and for either order of the two completions,
and a network completion never changes the collection, the scene or a
position. -/
theorem handleClick_ready (s : World) (hl : s.isLoading = false) (hs : s.sceneRef = true)
    (hd : s.dustbinRef = true) (r1 r2 : ℚ) (ok : Bool) :
    ((handleClick s).networkCalls = s.networkCalls + 1 ∧
      (handleClick s).garbageLoads = s.garbageLoads + 1 ∧
      (handleClick s).garbageList = s.garbageList ∧
      (handleClick s).children = s.children) ∧
    (∀ t ∈ [run s [Event.click, Event.garbageLoaded r1 r2, Event.networkResult ok],
            run s [Event.click, Event.networkResult ok, Event.garbageLoaded r1 r2]],
      t.garbageList = s.garbageList ++ [s.nextRef] ∧
      t.children = s.children ++ [Object3D.garbage s.nextRef] ∧
      t.networkCalls = s.networkCalls + 1) ∧
    (∀ t ∈ [run s [Event.click, Event.garbageFailed, Event.networkResult ok],
            run s [Event.click, Event.networkResult ok, Event.garbageFailed]],
      t.garbageList = s.garbageList ∧
      t.children = s.children ∧
      t.networkCalls = s.networkCalls + 1) ∧
    (∀ t : World, (onNetworkResult ok t).garbageList = t.garbageList ∧
      (onNetworkResult ok t).children = t.children ∧
      (onNetworkResult ok t).position = t.position ∧
      (onNetworkResult ok t).networkCalls = t.networkCalls) := by
  have hc : handleClick s =
      { s with garbageLoads := s.garbageLoads + 1, networkCalls := s.networkCalls + 1 } := by
    unfold handleClick
    simp [hl, hs, hd]
  refine ⟨?_, ?_, ?_, ?_⟩
  · rw [hc]
    exact ⟨rfl, rfl, rfl, rfl⟩
  · intro t ht
    simp only [List.mem_cons, List.mem_singleton, List.not_mem_nil, or_false] at ht
    rcases ht with rfl | rfl <;>
      simp [run, step, hc, onGarbageLoad, onNetworkResult, sceneAdd]
  · intro t ht
    simp only [List.mem_cons, List.mem_singleton, List.not_mem_nil, or_false] at ht
    rcases ht with rfl | rfl <;>
      simp [run, step, hc, onGarbageError, onNetworkResult]
  · intro t
    exact ⟨rfl, rfl, rfl, rfl⟩

/-- C7: for random values in `[0, 1)` both horizontal coordinates of a spawned
item lie in `[-1, 1]` and its vertical coordinate is exactly 15; this is the
position with which the garbage load callback appends the new item. -/
theorem spawn_position_bounds (r1 r2 : ℚ) (h1 : 0 ≤ r1 ∧ r1 < 1) (h2 : 0 ≤ r2 ∧ r2 < 1) :
    (-1 ≤ (spawnPosition r1 r2).x ∧ (spawnPosition r1 r2).x ≤ 1) ∧
    (-1 ≤ (spawnPosition r1 r2).z ∧ (spawnPosition r1 r2).z ≤ 1) ∧
    (spawnPosition r1 r2).y = 15 ∧
    (∀ s : World, (onGarbageLoad r1 r2 s).garbageList = s.garbageList ++ [s.nextRef] ∧
      (onGarbageLoad r1 r2 s).position s.nextRef = spawnPosition r1 r2) := by
  obtain ⟨h1a, h1b⟩ := h1
  obtain ⟨h2a, h2b⟩ := h2
  refine ⟨⟨?_, ?_⟩, ⟨?_, ?_⟩, rfl, ?_⟩
  · simp only [spawnPosition]; linarith
  · simp only [spawnPosition]; linarith
  · simp only [spawnPosition]; linarith
  · simp only [spawnPosition]; linarith
  · intro s
    exact ⟨rfl, by simp [onGarbageLoad]⟩

/-- C1 (evaluation at a reachable state): the frame that removes the older of
two items passes over the younger one, whose vertical coordinate is the same
after the frame as before it. -/
theorem animateGarbage_skips_after_removal :
    beforeRemoval.garbageList = [0, 1] ∧
    (beforeRemoval.position 0).y = -443 / 100 ∧
    (beforeRemoval.position 1).y = -857 / 200 ∧
    (animateGarbage beforeRemoval).garbageList = [1] ∧
    ((animateGarbage beforeRemoval).position 0).y = -443 / 100 - 29 / 200 ∧
    ((animateGarbage beforeRemoval).position 1).y = -857 / 200 := by
  decide!

/-- C3 (evaluation at a reachable state): an item appended at height 15 one
frame after another item is still tracked and attached 135 frames later, at
height -4.43; it is removed by the 136th frame. -/
theorem spawned_item_outlives_135_frames :
    secondSpawned.garbageList = [0, 1] ∧
    (secondSpawned.position 1).y = 15 ∧
    (ticks 135 secondSpawned).garbageList = [1] ∧
    Object3D.garbage 1 ∈ (ticks 135 secondSpawned).children ∧
    ((ticks 135 secondSpawned).position 1).y = -443 / 100 ∧
    (ticks 136 secondSpawned).garbageList = [] ∧
    Object3D.garbage 1 ∉ (ticks 136 secondSpawned).children := by
  decide!

theorem animateGarbage_at_most_once_witness :
    beforeRemoval.garbageList.Nodup ∧
    ((((animateGarbage beforeRemoval).position 0).y = (beforeRemoval.position 0).y ∨
      ((animateGarbage beforeRemoval).position 0).y = (beforeRemoval.position 0).y - 29 / 200) ∧
    ((animateGarbage beforeRemoval).position 0).x = (beforeRemoval.position 0).x ∧
    ((animateGarbage beforeRemoval).position 0).z = (beforeRemoval.position 0).z) :=
  ⟨by decide!, animateGarbage_at_most_once beforeRemoval (by decide!) 0⟩

theorem threshold_invariant_witness :
    1 ∈ (run (mount 800 700)
      ([Event.dustbinLoaded, Event.click, Event.garbageLoaded (1 / 2) (1 / 2), Event.frame,
          Event.click, Event.garbageLoaded (1 / 2) (1 / 2)] ++
        List.replicate 134 Event.frame)).garbageList ∧
    threshold ≤ ((run (mount 800 700)
      ([Event.dustbinLoaded, Event.click, Event.garbageLoaded (1 / 2) (1 / 2), Event.frame,
          Event.click, Event.garbageLoaded (1 / 2) (1 / 2)] ++
        List.replicate 134 Event.frame)).position 1).y :=
  ⟨by decide!, threshold_invariant 800 700 _ 1 (by decide!)⟩

theorem handleClick_ready_witness :
    (ready.isLoading = false ∧ ready.sceneRef = true ∧ ready.dustbinRef = true) ∧
    (((handleClick ready).networkCalls = ready.networkCalls + 1 ∧
      (handleClick ready).garbageLoads = ready.garbageLoads + 1 ∧
      (handleClick ready).garbageList = ready.garbageList ∧
      (handleClick ready).children = ready.children) ∧
    (∀ t ∈ [run ready [Event.click, Event.garbageLoaded (1 / 4) (3 / 4), Event.networkResult false],
            run ready [Event.click, Event.networkResult false, Event.garbageLoaded (1 / 4) (3 / 4)]],
      t.garbageList = ready.garbageList ++ [ready.nextRef] ∧
      t.children = ready.children ++ [Object3D.garbage ready.nextRef] ∧
      t.networkCalls = ready.networkCalls + 1) ∧
    (∀ t ∈ [run ready [Event.click, Event.garbageFailed, Event.networkResult false],
            run ready [Event.click, Event.networkResult false, Event.garbageFailed]],
      t.garbageList = ready.garbageList ∧
      t.children = ready.children ∧
      t.networkCalls = ready.networkCalls + 1) ∧
    (∀ t : World, (onNetworkResult false t).garbageList = t.garbageList ∧
      (onNetworkResult false t).children = t.children ∧
      (onNetworkResult false t).position = t.position ∧
      (onNetworkResult false t).networkCalls = t.networkCalls)) :=
  ⟨⟨rfl, rfl, rfl⟩, handleClick_ready ready rfl rfl rfl (1 / 4) (3 / 4) false⟩

theorem spawn_position_bounds_witness :
    ((0 : ℚ) ≤ 1 / 4 ∧ (1 / 4 : ℚ) < 1) ∧ ((0 : ℚ) ≤ 3 / 4 ∧ (3 / 4 : ℚ) < 1) ∧
    ((-1 ≤ (spawnPosition (1 / 4) (3 / 4)).x ∧ (spawnPosition (1 / 4) (3 / 4)).x ≤ 1) ∧
    (-1 ≤ (spawnPosition (1 / 4) (3 / 4)).z ∧ (spawnPosition (1 / 4) (3 / 4)).z ≤ 1) ∧
    (spawnPosition (1 / 4) (3 / 4)).y = 15 ∧
    (∀ s : World,
      (onGarbageLoad (1 / 4) (3 / 4) s).garbageList = s.garbageList ++ [s.nextRef] ∧
      (onGarbageLoad (1 / 4) (3 / 4) s).position s.nextRef = spawnPosition (1 / 4) (3 / 4))) :=
  ⟨by norm_num, by norm_num, spawn_position_bounds (1 / 4) (3 / 4) (by norm_num) (by norm_num)⟩

end Dustbin
